import Mathlib

/-!
The include conflict guard `rocwmma_wrapper.h`

A verification development for `ggml/src/ggml-cuda/rocwmma_wrapper.h`.

The header is a list of preprocessor lines.  It is embedded line by line
(`rocwmma_wrapper`, one entry per source line, comments and blank lines
included) and run by a small preprocessor (`runLines`) that keeps

* the macro environment of the translation unit,
* a chronological trace of the directives that were executed, and
* the nesting depth of the conditional groups being processed or skipped.

The contents of an included file are not part of the repository: the build
host is a parameter `fs` that maps a path to the effect the file at that path
has on the macro environment, or to `none` when there is no such file.  What
an included file declares, and the diagnostics it may raise itself, are
outside the development; the results are about the directives of the wrapper.

A `#define` of a macro that is already defined is not fatal (compilers warn):
it is executed, and the trace keeps the value the macro had before.
-/

namespace RocwmmaWrapper

/-! ## Data model -/

/-- Macro environment: the most recent definition of a name comes first. -/
abbrev Env := List (String × String)

/-- Replacement text of a macro, if the macro is defined. -/
def lookupMacro : Env → String → Option String
  | [], _ => none
  | (k, v) :: rest, n => if k = n then some v else lookupMacro rest n

/-- The test made by `#ifdef` / `#ifndef`. -/
def isDefined (env : Env) (n : String) : Bool := (lookupMacro env n).isSome

/-- Effect of `#define n v` on the macro environment. -/
def defineMacro (n v : String) (env : Env) : Env := (n, v) :: env

/-- One line of a header file.  `#endif` lines may carry a trailing comment in
the source; it has no effect and is not kept. -/
inductive Line where
  | blank
  | comment (text : String)
  | ifdef (name : String)
  | ifndef (name : String)
  | define (name value : String)
  | pragma (text : String)
  | include (path : String)
  | endif
  deriving DecidableEq, Repr

/-- What the preprocessor did, in the order it did it.  A `define` event
records the value the macro had just before the directive ran; an `include`
event records the macro environment in which the directive was reached. -/
inductive Event where
  | define (name value : String) (prior : Option String)
  | pragma (text : String)
  | include (path : String) (env : Env)
  deriving DecidableEq, Repr

/-- State of a translation unit while it is being preprocessed. -/
structure PState where
  env : Env
  trace : List Event
  deriving DecidableEq, Repr

/-- Diagnostics that stop preprocessing. -/
inductive PPError where
  | fileNotFound (path : String)
  | endifWithoutIf
  | unterminatedConditional
  deriving DecidableEq, Repr

/-- A fatal diagnostic together with the state in which it was raised. -/
structure Failure where
  error : PPError
  st : PState
  deriving DecidableEq, Repr

/-- The build host: the file at a path, given by its effect on the macro
environment of the including translation unit. -/
abbrev FS := String → Option (Env → Env)

/-! ## The preprocessor -/

/-- Runs the lines of one file.  `active` counts the enclosing conditional
groups that are being processed, `skipping` the enclosing conditional groups
inside a group that is being skipped (`0` means lines are processed). -/
def runLines (fs : FS) : List Line → Nat → Nat → PState → Except Failure PState
  | [], active, skipping, st =>
      if active = 0 ∧ skipping = 0 then .ok st
      else .error ⟨.unterminatedConditional, st⟩
  | l :: rest, active, skipping + 1, st =>
      match l with
      | .ifdef _ => runLines fs rest active (skipping + 2) st
      | .ifndef _ => runLines fs rest active (skipping + 2) st
      | .endif => runLines fs rest active skipping st
      | _ => runLines fs rest active (skipping + 1) st
  | l :: rest, active, 0, st =>
      match l with
      | .blank => runLines fs rest active 0 st
      | .comment _ => runLines fs rest active 0 st
      | .ifdef n =>
          if isDefined st.env n then runLines fs rest (active + 1) 0 st
          else runLines fs rest active 1 st
      | .ifndef n =>
          if isDefined st.env n then runLines fs rest active 1 st
          else runLines fs rest (active + 1) 0 st
      | .define n v =>
          runLines fs rest active 0
            ⟨defineMacro n v st.env, st.trace ++ [.define n v (lookupMacro st.env n)]⟩
      | .pragma t => runLines fs rest active 0 ⟨st.env, st.trace ++ [.pragma t]⟩
      | .include p =>
          match fs p with
          | none => .error ⟨.fileNotFound p, ⟨st.env, st.trace ++ [.include p st.env]⟩⟩
          | some body =>
              runLines fs rest active 0 ⟨body st.env, st.trace ++ [.include p st.env]⟩
      | .endif =>
          match active with
          | 0 => .error ⟨.endifWithoutIf, st⟩
          | a + 1 => runLines fs rest a 0 st

/-! ## The header -/

/-- Include guard of the wrapper. -/
def wrapperGuard : String := "ROCWMMA_WRAPPER_H"

/-- Platform identification macro. -/
def platformMacro : String := "__HIP_PLATFORM_AMD__"

/-- Guard around the definition of the sentinel. -/
def atomicGuard : String := "AMD_HIP_ATOMIC_GUARD"

/-- Include guard of the platform header `amd_hip_atomic.h`. -/
def sentinel : String := "HIP_INCLUDE_HIP_AMD_DETAIL_AMD_HIP_ATOMIC_H"

/-- Path in the `#include` directive of the wrapper. -/
def pinnedPath : String := "/opt/rocm-6.4.3/include/rocwmma/rocwmma.hpp"

/-- The text of `rocwmma_wrapper.h`, one entry per source line (23 lines). -/
def rocwmma_wrapper : List Line :=
  [ Line.ifndef "ROCWMMA_WRAPPER_H",
    .define "ROCWMMA_WRAPPER_H" "",
    .blank,
    .comment "This wrapper prevents header conflicts between system HIP and ROCm 6.4.1 installations",
    Line.ifdef "__HIP_PLATFORM_AMD__",
    .blank,
    .comment "Exclude problematic system headers during ROCWMMA inclusion",
    .pragma "GCC system_header",
    .blank,
    .comment "Define guard macros to prevent double inclusion of conflicting headers",
    Line.ifndef "AMD_HIP_ATOMIC_GUARD",
    .define "AMD_HIP_ATOMIC_GUARD" "",
    Line.ifndef "HIP_INCLUDE_HIP_AMD_DETAIL_AMD_HIP_ATOMIC_H",
    .define "HIP_INCLUDE_HIP_AMD_DETAIL_AMD_HIP_ATOMIC_H" "0",
    .endif,
    .endif,
    .blank,
    .comment "Include ROCWMMA from the specific ROCm installation",
    .include "/opt/rocm-6.4.3/include/rocwmma/rocwmma.hpp",
    .blank,
    .endif,
    .blank,
    .endif ]

/-- One inclusion of `rocwmma_wrapper.h` at a point of a translation unit. -/
def includeWrapper (fs : FS) (st : PState) : Except Failure PState :=
  runLines fs rocwmma_wrapper 0 0 st

/-- Preprocessing `rocwmma_wrapper.h` from an initial macro environment. -/
def preprocess (fs : FS) (env : Env) : Except Failure PState :=
  includeWrapper fs ⟨env, []⟩

/-- The header included `n` times in sequence within one translation unit. -/
def includeTimes (fs : FS) : Nat → PState → Except Failure PState
  | 0, st => .ok st
  | n + 1, st =>
      match includeWrapper fs st with
      | .error f => .error f
      | .ok st' => includeTimes fs n st'

/-! ## Observations on an outcome -/

/-- State reached by a run, whether it ended normally or with a diagnostic. -/
def finalState : Except Failure PState → PState
  | .ok st => st
  | .error f => f.st

/-- Whether a run ended without a diagnostic. -/
def succeeded : Except Failure PState → Bool
  | .ok _ => true
  | .error _ => false

/-- The event is an executed `#include`. -/
def Event.isInclude : Event → Bool
  | .include _ _ => true
  | _ => false

/-- The event is an executed `#pragma`. -/
def Event.isPragma : Event → Bool
  | .pragma _ => true
  | _ => false

/-- The event is an executed `#define`. -/
def Event.isDefine : Event → Bool
  | .define _ _ _ => true
  | _ => false

/-- Number of `#include` directives executed. -/
def includeCount (t : List Event) : Nat := (t.filter Event.isInclude).length

/-- A build host on which only the pinned path exists, with the given body. -/
def hostWith (body : Env → Env) : FS :=
  fun p => if p = pinnedPath then some body else none

/-- A build host without any file. -/
def emptyHost : FS := fun _ => none

/-- Effect of `#undef n` on the macro environment (the wrapper has no such
directive; an included file may). -/
def undefMacro (n : String) (env : Env) : Env := env.filter (fun p => p.1 ≠ n)

/-- The event, when it is a `#define`, defines one of the three macros of the
wrapper and found that macro undefined. -/
def Event.freshDefine : Event → Bool
  | .define n _ prior =>
      prior.isNone && (n == wrapperGuard || n == atomicGuard || n == sentinel)
  | _ => true

/-- Closed form of the macro environment in which the wrapper reaches its
`#include`, for an inclusion that starts on the platform with the include
guard unset. -/
def envAtInclude (env : Env) : Env :=
  if isDefined env "AMD_HIP_ATOMIC_GUARD" then
    defineMacro "ROCWMMA_WRAPPER_H" "" env
  else if isDefined env "HIP_INCLUDE_HIP_AMD_DETAIL_AMD_HIP_ATOMIC_H" then
    defineMacro "AMD_HIP_ATOMIC_GUARD" "" (defineMacro "ROCWMMA_WRAPPER_H" "" env)
  else
    defineMacro "HIP_INCLUDE_HIP_AMD_DETAIL_AMD_HIP_ATOMIC_H" "0"
      (defineMacro "AMD_HIP_ATOMIC_GUARD" "" (defineMacro "ROCWMMA_WRAPPER_H" "" env))

/-- Closed form of the events of such an inclusion up to the `#include`. -/
def eventsBeforeInclude (env : Env) : List Event :=
  [.define "ROCWMMA_WRAPPER_H" "" none, .pragma "GCC system_header"] ++
    (if isDefined env "AMD_HIP_ATOMIC_GUARD" then []
     else if isDefined env "HIP_INCLUDE_HIP_AMD_DETAIL_AMD_HIP_ATOMIC_H" then
       [.define "AMD_HIP_ATOMIC_GUARD" "" none]
     else
       [.define "AMD_HIP_ATOMIC_GUARD" "" none,
        .define "HIP_INCLUDE_HIP_AMD_DETAIL_AMD_HIP_ATOMIC_H" "0" none])

/-- Closed form of the state in which the `#include` directive has been
reached and recorded. -/
def stateAtInclude (st : PState) : PState :=
  ⟨envAtInclude st.env,
   st.trace ++ (eventsBeforeInclude st.env ++ [.include pinnedPath (envAtInclude st.env)])⟩

/-! ## The release named by the header -/

/-- Characters that follow the first occurrence of `marker` in the text. -/
def afterMarker (marker : List Char) : List Char → Option (List Char)
  | [] => none
  | c :: cs =>
      if marker.isPrefixOf (c :: cs) then some ((c :: cs).drop marker.length)
      else afterMarker marker cs

/-- Release number (digits and dots) that follows the first occurrence of
`marker` in `text`. -/
def releaseAfter (marker text : String) : Option String :=
  (afterMarker marker.toList text.toList).map
    (fun cs => String.mk (cs.takeWhile (fun c => c.isDigit || c == '.')))

/-- ROCm release named in the comments of a header: the number after the
first `ROCm ` in a comment line. -/
def documentedRelease (ls : List Line) : Option String :=
  ls.findSome? (fun l => match l with
    | .comment t => releaseAfter "ROCm " t
    | _ => none)

/-- Paths of the `#include` directives of a header, in order. -/
def includedPaths (ls : List Line) : List String :=
  ls.filterMap (fun l => match l with
    | .include p => some p
    | _ => none)

/-- ROCm release of an installation path: the number after `/opt/rocm-`. -/
def pathRelease (path : String) : Option String := releaseAfter "/opt/rocm-" path

/-- A build host with the ROCm 6.4.1 installation only: `rocwmma.hpp` exists
under `/opt/rocm-6.4.1` and nowhere else. -/
def documentedReleaseHost : FS :=
  fun p => if p = "/opt/rocm-6.4.1/include/rocwmma/rocwmma.hpp" then some id else none

/-! ## How one inclusion runs -/

/-- Looking a name up after a `#define` of another name. -/
theorem lookupMacro_define_ne (n v : String) (env : Env) (m : String) (h : n ≠ m) :
    lookupMacro (defineMacro n v env) m = lookupMacro env m := by
  simp [lookupMacro, defineMacro, h]

/-- Looking a name up right after its `#define`. -/
theorem lookupMacro_define_self (n v : String) (env : Env) :
    lookupMacro (defineMacro n v env) n = some v := by
  simp [lookupMacro, defineMacro]

/-- A `#define` of another name does not change the outcome of `#ifdef`. -/
theorem isDefined_define_ne (n v : String) (env : Env) (m : String) (h : n ≠ m) :
    isDefined (defineMacro n v env) m = isDefined env m := by
  simp [isDefined, lookupMacro_define_ne n v env m h]

/-- An undefined macro has no replacement text. -/
theorem lookupMacro_of_not_defined (env : Env) (n : String) (h : isDefined env n = false) :
    lookupMacro env n = none := by
  simpa [isDefined] using h

/-- With the include guard already set, an inclusion does nothing. -/
theorem includeWrapper_guarded (fs : FS) (st : PState)
    (hG : isDefined st.env "ROCWMMA_WRAPPER_H" = true) :
    includeWrapper fs st = .ok st := by
  simp [includeWrapper, rocwmma_wrapper, runLines, hG]

/-- Off the platform, a first inclusion only sets the include guard. -/
theorem includeWrapper_offPlatform (fs : FS) (st : PState)
    (hG : isDefined st.env "ROCWMMA_WRAPPER_H" = false)
    (hP : isDefined st.env "__HIP_PLATFORM_AMD__" = false) :
    includeWrapper fs st =
      .ok ⟨defineMacro "ROCWMMA_WRAPPER_H" "" st.env,
           st.trace ++ [.define "ROCWMMA_WRAPPER_H" "" none]⟩ := by
  have hP' : isDefined (defineMacro "ROCWMMA_WRAPPER_H" "" st.env) "__HIP_PLATFORM_AMD__" = false := by
    rw [isDefined_define_ne _ _ _ _ (by decide)]; exact hP
  simp [includeWrapper, rocwmma_wrapper, runLines, hG, hP', lookupMacro_of_not_defined _ _ hG]

/-- On the platform, a first inclusion runs up to the `#include` and then
depends on the build host only. -/
theorem includeWrapper_onPlatform (fs : FS) (st : PState)
    (hG : isDefined st.env "ROCWMMA_WRAPPER_H" = false)
    (hP : isDefined st.env "__HIP_PLATFORM_AMD__" = true) :
    includeWrapper fs st =
      match fs pinnedPath with
      | none => .error ⟨.fileNotFound pinnedPath, stateAtInclude st⟩
      | some body => .ok ⟨body (envAtInclude st.env), (stateAtInclude st).trace⟩ := by
  have hP1 : isDefined (defineMacro "ROCWMMA_WRAPPER_H" "" st.env) "__HIP_PLATFORM_AMD__" = true := by
    rw [isDefined_define_ne _ _ _ _ (by decide)]; exact hP
  have hA1 : isDefined (defineMacro "ROCWMMA_WRAPPER_H" "" st.env) "AMD_HIP_ATOMIC_GUARD"
      = isDefined st.env "AMD_HIP_ATOMIC_GUARD" :=
    isDefined_define_ne _ _ _ _ (by decide)
  have hS2 : isDefined (defineMacro "AMD_HIP_ATOMIC_GUARD" ""
      (defineMacro "ROCWMMA_WRAPPER_H" "" st.env)) "HIP_INCLUDE_HIP_AMD_DETAIL_AMD_HIP_ATOMIC_H"
      = isDefined st.env "HIP_INCLUDE_HIP_AMD_DETAIL_AMD_HIP_ATOMIC_H" := by
    rw [isDefined_define_ne _ _ _ _ (by decide), isDefined_define_ne _ _ _ _ (by decide)]
  have lA1 : lookupMacro (defineMacro "ROCWMMA_WRAPPER_H" "" st.env) "AMD_HIP_ATOMIC_GUARD"
      = lookupMacro st.env "AMD_HIP_ATOMIC_GUARD" :=
    lookupMacro_define_ne _ _ _ _ (by decide)
  have lS2 : lookupMacro (defineMacro "AMD_HIP_ATOMIC_GUARD" ""
      (defineMacro "ROCWMMA_WRAPPER_H" "" st.env)) "HIP_INCLUDE_HIP_AMD_DETAIL_AMD_HIP_ATOMIC_H"
      = lookupMacro st.env "HIP_INCLUDE_HIP_AMD_DETAIL_AMD_HIP_ATOMIC_H" := by
    rw [lookupMacro_define_ne _ _ _ _ (by decide), lookupMacro_define_ne _ _ _ _ (by decide)]
  cases hA : isDefined st.env "AMD_HIP_ATOMIC_GUARD" <;>
    cases hS : isDefined st.env "HIP_INCLUDE_HIP_AMD_DETAIL_AMD_HIP_ATOMIC_H" <;>
    cases hf : fs pinnedPath <;>
    simp [includeWrapper, rocwmma_wrapper, runLines, hG, hP1, hA1, hS2, lA1, lS2, hA, hS,
      lookupMacro_of_not_defined, stateAtInclude, envAtInclude, eventsBeforeInclude] <;>
    simp [pinnedPath] at hf <;> simp [hf, pinnedPath]

/-- The include guard is set when the `#include` is reached. -/
theorem guard_defined_atInclude (env : Env) :
    isDefined (envAtInclude env) "ROCWMMA_WRAPPER_H" = true := by
  unfold envAtInclude
  split
  · simp [isDefined, lookupMacro, defineMacro]
  · split <;> simp [isDefined, lookupMacro, defineMacro]

/-- No `#include` is executed before the one of the pinned path. -/
theorem no_include_before (env : Env) :
    (eventsBeforeInclude env).filter Event.isInclude = [] := by
  unfold eventsBeforeInclude
  split
  · simp [Event.isInclude]
  · split <;> simp [Event.isInclude]

/-- Every `#define` executed before the `#include` is a fresh one. -/
theorem fresh_before_include (env : Env) :
    ∀ e ∈ eventsBeforeInclude env, e.freshDefine = true := by
  unfold eventsBeforeInclude
  split
  · simp [Event.freshDefine, wrapperGuard]
  · split <;> simp [Event.freshDefine, wrapperGuard, atomicGuard, sentinel]

/-- Trace of one inclusion, by cases on the entry environment. -/
theorem includeWrapper_trace (fs : FS) (st : PState) :
    (finalState (includeWrapper fs st)).trace =
      st.trace ++
        (if isDefined st.env "ROCWMMA_WRAPPER_H" then []
         else if isDefined st.env "__HIP_PLATFORM_AMD__" then
           eventsBeforeInclude st.env ++ [.include pinnedPath (envAtInclude st.env)]
         else [.define "ROCWMMA_WRAPPER_H" "" none]) := by
  cases hG : isDefined st.env "ROCWMMA_WRAPPER_H"
  · cases hP : isDefined st.env "__HIP_PLATFORM_AMD__"
    · simp [includeWrapper_offPlatform fs st hG hP, finalState]
    · rw [includeWrapper_onPlatform fs st hG hP]
      cases fs pinnedPath <;> simp [finalState, stateAtInclude]
  · simp [includeWrapper_guarded fs st hG, finalState]

/-- One inclusion appends fresh `#define`s only. -/
theorem includeWrapper_fresh (fs : FS) (st : PState)
    (h : ∀ e ∈ st.trace, e.freshDefine = true) :
    ∀ e ∈ (finalState (includeWrapper fs st)).trace, e.freshDefine = true := by
  rw [includeWrapper_trace]
  intro e he
  rw [List.mem_append] at he
  rcases he with he | he
  · exact h e he
  · split at he
    · simp at he
    · split at he
      · rw [List.mem_append] at he
        rcases he with he | he
        · exact fresh_before_include _ e he
        · simp at he; subst he; rfl
      · simp at he; subst he; decide

/-- Any number of inclusions appends fresh `#define`s only. -/
theorem includeTimes_fresh (fs : FS) (n : Nat) (st : PState)
    (h : ∀ e ∈ st.trace, e.freshDefine = true) :
    ∀ e ∈ (finalState (includeTimes fs n st)).trace, e.freshDefine = true := by
  induction n generalizing st with
  | zero => simpa [includeTimes, finalState] using h
  | succ k ih =>
    have h1 := includeWrapper_fresh fs st h
    unfold includeTimes
    cases hw : includeWrapper fs st with
    | error f => simpa [hw, finalState] using h1
    | ok st1 =>
      simp only []
      exact ih st1 (by simpa [hw, finalState] using h1)

/-- Once the include guard is set, further inclusions do nothing. -/
theorem includeTimes_guarded (fs : FS) (n : Nat) (st : PState)
    (hG : isDefined st.env "ROCWMMA_WRAPPER_H" = true) :
    includeTimes fs n st = .ok st := by
  induction n with
  | zero => rfl
  | succ k ih => simp [includeTimes, includeWrapper_guarded fs st hG, ih]

/-! ## Off the platform -/

/-- C1: when `__HIP_PLATFORM_AMD__` is undefined, preprocessing the wrapper
succeeds on every build host (also one without the pinned file), and the
trace holds no executed `#include` and no executed `#pragma`: no file is
opened and `#pragma GCC system_header` is not issued. -/
theorem off_platform_opens_no_file (fs : FS) (env : Env)
    (hP : isDefined env platformMacro = false) :
    succeeded (preprocess fs env) = true ∧
    includeCount (finalState (preprocess fs env)).trace = 0 ∧
    ∀ e ∈ (finalState (preprocess fs env)).trace,
      e.isInclude = false ∧ e.isPragma = false := by
  simp only [platformMacro] at hP
  cases hG : isDefined env "ROCWMMA_WRAPPER_H"
  · have h := includeWrapper_offPlatform fs ⟨env, []⟩ hG hP
    simp [preprocess, h, succeeded, finalState, includeCount, Event.isInclude, Event.isPragma]
  · have h := includeWrapper_guarded fs ⟨env, []⟩ hG
    simp [preprocess, h, succeeded, finalState, includeCount]

/-- Witness of C1 on a build host without any file, from the empty
environment. -/
theorem off_platform_opens_no_file_witness :
    isDefined [] platformMacro = false ∧
    succeeded (preprocess emptyHost []) = true ∧
    includeCount (finalState (preprocess emptyHost [])).trace = 0 ∧
    ∀ e ∈ (finalState (preprocess emptyHost [])).trace,
      e.isInclude = false ∧ e.isPragma = false :=
  ⟨by decide, off_platform_opens_no_file emptyHost [] (by decide)⟩

/-- C2 fails as stated: from the empty environment (platform macro undefined)
the wrapper introduces the symbol `ROCWMMA_WRAPPER_H`, so the environment
after the header differs from the environment before it. -/
theorem off_platform_not_zero_effect :
    isDefined [] platformMacro = false ∧
    isDefined [] wrapperGuard = false ∧
    isDefined (finalState (preprocess emptyHost [])).env wrapperGuard = true ∧
    (finalState (preprocess emptyHost [])).env ≠ [] := by
  decide

/-- C2, amended: when `__HIP_PLATFORM_AMD__` is undefined, preprocessing the
wrapper succeeds and introduces at most its own include guard: if
`ROCWMMA_WRAPPER_H` is already defined the environment is unchanged, otherwise
the environment is the old one extended by `ROCWMMA_WRAPPER_H` with an empty
replacement text; every other name keeps its definition status and value. -/
theorem off_platform_only_sets_guard (fs : FS) (env : Env)
    (hP : isDefined env platformMacro = false) :
    succeeded (preprocess fs env) = true ∧
    (finalState (preprocess fs env)).env =
      (if isDefined env wrapperGuard then env else defineMacro wrapperGuard "" env) ∧
    ∀ n, n ≠ wrapperGuard →
      lookupMacro (finalState (preprocess fs env)).env n = lookupMacro env n := by
  simp only [platformMacro] at hP
  simp only [wrapperGuard]
  cases hG : isDefined env "ROCWMMA_WRAPPER_H"
  · have h := includeWrapper_offPlatform fs ⟨env, []⟩ hG hP
    rw [preprocess, h]
    refine ⟨rfl, by simp [finalState], ?_⟩
    intro n hn
    exact lookupMacro_define_ne _ _ _ _ (Ne.symm hn)
  · have h := includeWrapper_guarded fs ⟨env, []⟩ hG
    simp [preprocess, h, succeeded, finalState]

/-- Witness of the amended C2 from an environment with one unrelated macro. -/
theorem off_platform_only_sets_guard_witness :
    isDefined [("NDEBUG", "1")] platformMacro = false ∧
    succeeded (preprocess emptyHost [("NDEBUG", "1")]) = true ∧
    (finalState (preprocess emptyHost [("NDEBUG", "1")])).env =
      (if isDefined [("NDEBUG", "1")] wrapperGuard then [("NDEBUG", "1")]
       else defineMacro wrapperGuard "" [("NDEBUG", "1")]) ∧
    ∀ n, n ≠ wrapperGuard →
      lookupMacro (finalState (preprocess emptyHost [("NDEBUG", "1")])).env n
        = lookupMacro [("NDEBUG", "1")] n :=
  ⟨by decide, off_platform_only_sets_guard emptyHost [("NDEBUG", "1")] (by decide)⟩

/-! ## Repeated inclusion -/

/-- C3: on the platform, with the include guard unset on entry, the pinned
file present and its contents never undefining `ROCWMMA_WRAPPER_H`, including
the wrapper `n ≥ 1` times in sequence succeeds, the state after `n` inclusions
is the state after the first one, and its trace holds exactly one executed
`#include`, that of the pinned path. -/
theorem include_exactly_once (fs : FS) (env : Env) (body : Env → Env) (n : Nat)
    (hn : 1 ≤ n)
    (hP : isDefined env platformMacro = true)
    (hG : isDefined env wrapperGuard = false)
    (hfs : fs pinnedPath = some body)
    (hkeep : ∀ e, isDefined e wrapperGuard = true → isDefined (body e) wrapperGuard = true) :
    ∃ st e,
      includeTimes fs n ⟨env, []⟩ = .ok st ∧
      includeTimes fs 1 ⟨env, []⟩ = .ok st ∧
      includeCount st.trace = 1 ∧
      st.trace.filter Event.isInclude = [.include pinnedPath e] := by
  simp only [platformMacro] at hP
  simp only [wrapperGuard] at hG hkeep
  have h1 := includeWrapper_onPlatform fs ⟨env, []⟩ hG hP
  simp only [hfs] at h1
  have hG1 : isDefined (body (envAtInclude env)) "ROCWMMA_WRAPPER_H" = true :=
    hkeep _ (guard_defined_atInclude env)
  obtain ⟨k, rfl⟩ : ∃ k, n = k + 1 := ⟨n - 1, by omega⟩
  refine ⟨⟨body (envAtInclude env), (stateAtInclude ⟨env, []⟩).trace⟩, envAtInclude env,
    ?_, ?_, ?_, ?_⟩
  · simp only [includeTimes, h1]
    exact includeTimes_guarded fs k _ hG1
  · simp only [includeTimes, h1]
  · simp [includeCount, stateAtInclude, List.filter_append, no_include_before, Event.isInclude]
  · simp [stateAtInclude, List.filter_append, no_include_before, Event.isInclude]

/-- Witness of C3: three inclusions on a host whose pinned file defines one
macro of its own. -/
theorem include_exactly_once_witness :
    ∃ st e,
      includeTimes (hostWith (defineMacro "ROCWMMA_HPP" "")) 3
        ⟨[("__HIP_PLATFORM_AMD__", "1")], []⟩ = .ok st ∧
      includeTimes (hostWith (defineMacro "ROCWMMA_HPP" "")) 1
        ⟨[("__HIP_PLATFORM_AMD__", "1")], []⟩ = .ok st ∧
      includeCount st.trace = 1 ∧
      st.trace.filter Event.isInclude = [.include pinnedPath e] :=
  include_exactly_once (hostWith (defineMacro "ROCWMMA_HPP" ""))
    [("__HIP_PLATFORM_AMD__", "1")] (defineMacro "ROCWMMA_HPP" "") 3
    (by decide) (by decide) (by decide) (by simp [hostWith])
    (fun e he => by rw [isDefined_define_ne _ _ _ _ (by decide)]; exact he)

/-- C4 fails as stated: when the included file undefines `ROCWMMA_WRAPPER_H`,
the second inclusion (run from the environment the first one produced, with
a trace of its own) executes `#define ROCWMMA_WRAPPER_H` and the `#include`
again. -/
theorem second_pass_defines_again :
    succeeded (preprocess (hostWith (undefMacro wrapperGuard))
      [("__HIP_PLATFORM_AMD__", "1")]) = true ∧
    (finalState (preprocess (hostWith (undefMacro wrapperGuard))
      (finalState (preprocess (hostWith (undefMacro wrapperGuard))
        [("__HIP_PLATFORM_AMD__", "1")])).env)).trace =
      [.define "ROCWMMA_WRAPPER_H" "" none,
       .pragma "GCC system_header",
       .include pinnedPath
         [("ROCWMMA_WRAPPER_H", ""),
          ("HIP_INCLUDE_HIP_AMD_DETAIL_AMD_HIP_ATOMIC_H", "0"),
          ("AMD_HIP_ATOMIC_GUARD", ""),
          ("__HIP_PLATFORM_AMD__", "1")]] := by
  decide

/-- C4, amended: over two inclusions from any initial environment, on any
build host (also one whose included file undefines `ROCWMMA_WRAPPER_H`), every
executed `#define` targets one of `ROCWMMA_WRAPPER_H`, `AMD_HIP_ATOMIC_GUARD`,
`HIP_INCLUDE_HIP_AMD_DETAIL_AMD_HIP_ATOMIC_H` and finds it undefined; and,
provided the included file does not undefine `ROCWMMA_WRAPPER_H`, a second
inclusion after a successful first one returns the very state the first one
produced: it executes no directive and leaves the environment unchanged. -/
theorem twice_never_redefines (fs : FS) (env : Env) :
    (∀ n v prior,
      Event.define n v prior ∈ (finalState (includeTimes fs 2 ⟨env, []⟩)).trace →
        prior = none ∧ (n = wrapperGuard ∨ n = atomicGuard ∨ n = sentinel)) ∧
    ((∀ body, fs pinnedPath = some body →
        ∀ e, isDefined e wrapperGuard = true → isDefined (body e) wrapperGuard = true) →
      ∀ st1, includeWrapper fs ⟨env, []⟩ = .ok st1 → includeWrapper fs st1 = .ok st1) := by
  constructor
  · intro n v prior hmem
    have h := includeTimes_fresh fs 2 ⟨env, []⟩ (by simp) _ hmem
    simpa [Event.freshDefine, or_assoc] using h
  · intro hkeep st1 h1
    apply includeWrapper_guarded
    simp only [wrapperGuard] at hkeep
    cases hG : isDefined env "ROCWMMA_WRAPPER_H"
    · cases hP : isDefined env "__HIP_PLATFORM_AMD__"
      · rw [includeWrapper_offPlatform fs ⟨env, []⟩ hG hP] at h1
        cases h1
        simp [isDefined, lookupMacro, defineMacro]
      · rw [includeWrapper_onPlatform fs ⟨env, []⟩ hG hP] at h1
        cases hf : fs pinnedPath with
        | none => simp [hf] at h1
        | some body =>
          simp only [hf] at h1
          cases h1
          exact hkeep body hf _ (guard_defined_atInclude env)
    · rw [includeWrapper_guarded fs ⟨env, []⟩ hG] at h1
      cases h1
      exact hG

/-- Witness of the amended C4 on the platform.  On the host whose pinned file
undefines `ROCWMMA_WRAPPER_H` the two inclusions run `#define`s in both passes
and each one finds its macro undefined; on a host whose pinned file defines
one macro of its own, the first inclusion succeeds and the second one returns
the state of the first. -/
theorem twice_never_redefines_witness :
    (∀ n v prior,
      Event.define n v prior ∈ (finalState (includeTimes
        (hostWith (undefMacro wrapperGuard)) 2
        ⟨[("__HIP_PLATFORM_AMD__", "1")], []⟩)).trace →
        prior = none ∧ (n = wrapperGuard ∨ n = atomicGuard ∨ n = sentinel)) ∧
    (∃ st1, includeWrapper (hostWith (defineMacro "ROCWMMA_HPP" ""))
        ⟨[("__HIP_PLATFORM_AMD__", "1")], []⟩ = .ok st1 ∧
      includeWrapper (hostWith (defineMacro "ROCWMMA_HPP" "")) st1 = .ok st1) :=
  ⟨(twice_never_redefines (hostWith (undefMacro wrapperGuard))
      [("__HIP_PLATFORM_AMD__", "1")]).1,
   ⟨_, rfl,
    (twice_never_redefines (hostWith (defineMacro "ROCWMMA_HPP" ""))
      [("__HIP_PLATFORM_AMD__", "1")]).2
      (fun body hb e he => by
        have hb' : defineMacro "ROCWMMA_HPP" "" = body := by simpa [hostWith] using hb
        subst hb'
        rw [isDefined_define_ne _ _ _ _ (by decide)]; exact he)
      _ rfl⟩⟩

/-! ## On the platform -/

/-- Shape of the environment at the `#include` with respect to the sentinel. -/
theorem sentinel_atInclude (env : Env) :
    (isDefined (envAtInclude env) sentinel =
      (!isDefined env atomicGuard || isDefined env sentinel)) ∧
    (isDefined env sentinel = false → isDefined (envAtInclude env) sentinel = true →
      lookupMacro (envAtInclude env) sentinel = some "0") ∧
    (isDefined env sentinel = true →
      lookupMacro (envAtInclude env) sentinel = lookupMacro env sentinel) := by
  simp only [sentinel, atomicGuard, envAtInclude]
  cases hA : isDefined env "AMD_HIP_ATOMIC_GUARD" <;>
    cases hS : isDefined env "HIP_INCLUDE_HIP_AMD_DETAIL_AMD_HIP_ATOMIC_H" <;>
    simp_all [isDefined, lookupMacro, defineMacro]

/-- The executed `#include`s of a first inclusion on the platform. -/
theorem includes_onPlatform (fs : FS) (env : Env)
    (hP : isDefined env platformMacro = true)
    (hG : isDefined env wrapperGuard = false) :
    (finalState (preprocess fs env)).trace.filter Event.isInclude =
      [.include pinnedPath (envAtInclude env)] := by
  simp only [platformMacro] at hP
  simp only [wrapperGuard] at hG
  rw [preprocess, includeWrapper_trace]
  simp [hG, hP, List.filter_append, no_include_before, Event.isInclude]

/-- C5 fails as stated: on the platform, with the include guard unset and
`AMD_HIP_ATOMIC_GUARD` already defined on entry, the `#include` is reached in
an environment in which the sentinel is undefined. -/
theorem sentinel_missing_at_include :
    isDefined [("AMD_HIP_ATOMIC_GUARD", ""), ("__HIP_PLATFORM_AMD__", "1")] platformMacro
      = true ∧
    isDefined [("AMD_HIP_ATOMIC_GUARD", ""), ("__HIP_PLATFORM_AMD__", "1")] wrapperGuard
      = false ∧
    (finalState (preprocess (hostWith id)
      [("AMD_HIP_ATOMIC_GUARD", ""), ("__HIP_PLATFORM_AMD__", "1")])).trace.filter
        Event.isInclude =
      [.include pinnedPath
        [("ROCWMMA_WRAPPER_H", ""), ("AMD_HIP_ATOMIC_GUARD", ""),
         ("__HIP_PLATFORM_AMD__", "1")]] ∧
    isDefined
      [("ROCWMMA_WRAPPER_H", ""), ("AMD_HIP_ATOMIC_GUARD", ""),
       ("__HIP_PLATFORM_AMD__", "1")] sentinel = false := by
  decide

/-- C5, amended: on the platform with the include guard unset, if on entry
`AMD_HIP_ATOMIC_GUARD` is undefined or the sentinel is already defined, then
the one `#include` the wrapper executes is reached in an environment in which
`HIP_INCLUDE_HIP_AMD_DETAIL_AMD_HIP_ATOMIC_H` is defined; when the wrapper
introduced the sentinel its value is `0`, and a sentinel defined on entry
keeps its value. -/
theorem sentinel_defined_at_include (fs : FS) (env : Env)
    (hP : isDefined env platformMacro = true)
    (hG : isDefined env wrapperGuard = false)
    (hA : isDefined env atomicGuard = false ∨ isDefined env sentinel = true) :
    ∃ e,
      (finalState (preprocess fs env)).trace.filter Event.isInclude
        = [.include pinnedPath e] ∧
      isDefined e sentinel = true ∧
      (isDefined env sentinel = false → lookupMacro e sentinel = some "0") ∧
      (isDefined env sentinel = true → lookupMacro e sentinel = lookupMacro env sentinel) := by
  obtain ⟨h1, h2, h3⟩ := sentinel_atInclude env
  have hd : isDefined (envAtInclude env) sentinel = true := by
    rw [h1]; rcases hA with hA | hA <;> simp [hA]
  exact ⟨envAtInclude env, includes_onPlatform fs env hP hG, hd, fun h => h2 h hd, h3⟩

/-- Witness of the amended C5 from an environment that only has the platform
macro, on a host without the pinned file. -/
theorem sentinel_defined_at_include_witness :
    ∃ e,
      (finalState (preprocess emptyHost [("__HIP_PLATFORM_AMD__", "1")])).trace.filter
        Event.isInclude = [.include pinnedPath e] ∧
      isDefined e sentinel = true ∧
      (isDefined [("__HIP_PLATFORM_AMD__", "1")] sentinel = false →
        lookupMacro e sentinel = some "0") ∧
      (isDefined [("__HIP_PLATFORM_AMD__", "1")] sentinel = true →
        lookupMacro e sentinel = lookupMacro [("__HIP_PLATFORM_AMD__", "1")] sentinel) :=
  sentinel_defined_at_include emptyHost [("__HIP_PLATFORM_AMD__", "1")]
    (by decide) (by decide) (Or.inl (by decide))

/-! ## Failure -/

/-- C6: on the platform with the include guard unset, a build host without
the pinned file makes preprocessing fail with file-not-found for the pinned
path; and on any host, from any environment, a failure of the wrapper is
that one: file-not-found for the pinned path, on the platform, with the
include guard unset, the file missing. -/
theorem missing_pinned_path_fails (fs : FS) (env : Env)
    (hP : isDefined env platformMacro = true)
    (hG : isDefined env wrapperGuard = false)
    (hnone : fs pinnedPath = none) :
    (∃ st, preprocess fs env = .error ⟨.fileNotFound pinnedPath, st⟩) ∧
    (∀ (fs1 : FS) (env1 : Env) (f : Failure), preprocess fs1 env1 = .error f →
      f.error = .fileNotFound pinnedPath ∧ fs1 pinnedPath = none ∧
      isDefined env1 platformMacro = true ∧ isDefined env1 wrapperGuard = false) := by
  simp only [platformMacro, wrapperGuard] at *
  constructor
  · have h := includeWrapper_onPlatform fs ⟨env, []⟩ hG hP
    simp only [hnone] at h
    exact ⟨_, h⟩
  · intro fs1 env1 f hf
    cases hG1 : isDefined env1 "ROCWMMA_WRAPPER_H"
    · cases hP1 : isDefined env1 "__HIP_PLATFORM_AMD__"
      · rw [preprocess, includeWrapper_offPlatform fs1 ⟨env1, []⟩ hG1 hP1] at hf
        cases hf
      · rw [preprocess, includeWrapper_onPlatform fs1 ⟨env1, []⟩ hG1 hP1] at hf
        cases hp : fs1 pinnedPath with
        | none =>
          simp only [hp] at hf
          cases hf
          exact ⟨rfl, rfl, rfl, rfl⟩
        | some body =>
          simp only [hp] at hf
          cases hf
    · rw [preprocess, includeWrapper_guarded fs1 ⟨env1, []⟩ hG1] at hf
      cases hf

/-- Witness of C6 on a build host without any file. -/
theorem missing_pinned_path_fails_witness :
    (∃ st, preprocess emptyHost [("__HIP_PLATFORM_AMD__", "1")]
      = .error ⟨.fileNotFound pinnedPath, st⟩) ∧
    (∀ (fs1 : FS) (env1 : Env) (f : Failure), preprocess fs1 env1 = .error f →
      f.error = .fileNotFound pinnedPath ∧ fs1 pinnedPath = none ∧
      isDefined env1 platformMacro = true ∧ isDefined env1 wrapperGuard = false) :=
  missing_pinned_path_fails emptyHost [("__HIP_PLATFORM_AMD__", "1")]
    (by decide) (by decide) rfl

/-! ## The pinned release -/

/-- C7 evaluated on the header: its only `#include` is the pinned path, the
comment names ROCm release `6.4.1`, the pinned path lies in the installation
of release `6.4.3`, and the two releases differ; on a build host that has the
documented 6.4.1 installation only, preprocessing on the platform fails at the
`#include` of the 6.4.3 path. -/
theorem documented_release_differs_from_pinned :
    includedPaths rocwmma_wrapper = [pinnedPath] ∧
    documentedRelease rocwmma_wrapper = some "6.4.1" ∧
    pathRelease pinnedPath = some "6.4.3" ∧
    documentedRelease rocwmma_wrapper ≠ pathRelease pinnedPath ∧
    succeeded (preprocess documentedReleaseHost [("__HIP_PLATFORM_AMD__", "1")]) = false ∧
    (finalState (preprocess documentedReleaseHost
      [("__HIP_PLATFORM_AMD__", "1")])).trace.filter Event.isInclude =
      [.include "/opt/rocm-6.4.3/include/rocwmma/rocwmma.hpp"
        [("HIP_INCLUDE_HIP_AMD_DETAIL_AMD_HIP_ATOMIC_H", "0"),
         ("AMD_HIP_ATOMIC_GUARD", ""),
         ("ROCWMMA_WRAPPER_H", ""),
         ("__HIP_PLATFORM_AMD__", "1")]] := by
  decide

/-! ## When the include runs, and what the wrapper itself changes -/

/-- C8: the wrapper executes an `#include` exactly when, on entry,
`__HIP_PLATFORM_AMD__` is defined and `ROCWMMA_WRAPPER_H` is undefined.  In
particular, after a first inclusion off the platform (which succeeds), a
`#define` of `__HIP_PLATFORM_AMD__` followed by a second inclusion leaves the
cumulative trace without any executed `#include`, the guard having been set
by the first inclusion. -/
theorem include_iff_platform_and_unguarded (fs : FS) (env : Env) :
    ((∃ e ∈ (finalState (preprocess fs env)).trace, e.isInclude = true) ↔
      (isDefined env platformMacro = true ∧ isDefined env wrapperGuard = false)) ∧
    (isDefined env platformMacro = false → ∀ v,
      ∃ st1, preprocess fs env = .ok st1 ∧
        isDefined st1.env wrapperGuard = true ∧
        isDefined (defineMacro platformMacro v st1.env) platformMacro = true ∧
        succeeded (includeWrapper fs ⟨defineMacro platformMacro v st1.env, st1.trace⟩)
          = true ∧
        includeCount (finalState
          (includeWrapper fs ⟨defineMacro platformMacro v st1.env, st1.trace⟩)).trace = 0) := by
  simp only [platformMacro, wrapperGuard]
  constructor
  · rw [preprocess, includeWrapper_trace]
    cases hG : isDefined env "ROCWMMA_WRAPPER_H" <;>
      cases hP : isDefined env "__HIP_PLATFORM_AMD__" <;>
      simp [Event.isInclude]
    exact ⟨_, Or.inr rfl, rfl⟩
  · intro hP v
    have hdef : ∀ e : Env, isDefined e "ROCWMMA_WRAPPER_H" = true →
        isDefined (defineMacro "__HIP_PLATFORM_AMD__" v e) "ROCWMMA_WRAPPER_H" = true := by
      intro e he
      rw [isDefined_define_ne _ _ _ _ (by decide)]; exact he
    have hplat : ∀ e : Env,
        isDefined (defineMacro "__HIP_PLATFORM_AMD__" v e) "__HIP_PLATFORM_AMD__" = true := by
      intro e
      simp [isDefined, lookupMacro_define_self]
    cases hG : isDefined env "ROCWMMA_WRAPPER_H"
    · have h1 := includeWrapper_offPlatform fs ⟨env, []⟩ hG hP
      have hG1 : isDefined (defineMacro "ROCWMMA_WRAPPER_H" "" env) "ROCWMMA_WRAPPER_H" = true := by
        simp [isDefined, lookupMacro_define_self]
      refine ⟨_, h1, hG1, hplat _, ?_, ?_⟩
      · rw [includeWrapper_guarded fs _ (hdef _ hG1)]; rfl
      · rw [includeWrapper_guarded fs _ (hdef _ hG1)]
        simp [finalState, includeCount, Event.isInclude]
    · have h1 := includeWrapper_guarded fs ⟨env, []⟩ hG
      refine ⟨_, h1, hG, hplat _, ?_, ?_⟩
      · rw [includeWrapper_guarded fs _ (hdef _ hG)]; rfl
      · rw [includeWrapper_guarded fs _ (hdef _ hG)]
        simp [finalState, includeCount]

/-- Witness of C8: from the empty environment the first inclusion succeeds
off the platform and sets the guard; once `__HIP_PLATFORM_AMD__` is defined
with value `1`, a second inclusion succeeds and the cumulative trace has no
executed `#include`, on a host that does have the pinned file. -/
theorem include_iff_platform_and_unguarded_witness :
    ∃ st1, preprocess (hostWith id) [] = .ok st1 ∧
      isDefined st1.env wrapperGuard = true ∧
      isDefined (defineMacro platformMacro "1" st1.env) platformMacro = true ∧
      succeeded (includeWrapper (hostWith id)
        ⟨defineMacro platformMacro "1" st1.env, st1.trace⟩) = true ∧
      includeCount (finalState (includeWrapper (hostWith id)
        ⟨defineMacro platformMacro "1" st1.env, st1.trace⟩)).trace = 0 :=
  (include_iff_platform_and_unguarded (hostWith id) []).2 (by decide) "1"

/-- A name that has a definition differs from a name that has none. -/
theorem ne_of_lookup (env : Env) (n m v : String)
    (hn : lookupMacro env n = some v) (hm : isDefined env m = false) : m ≠ n := by
  intro h
  subst h
  simp [isDefined, hn] at hm

/-- Environment after one inclusion when the included file changes nothing. -/
theorem env_after_wrapper (fs : FS) (env : Env)
    (hid : ∀ body, fs pinnedPath = some body → ∀ e, body e = e) :
    (finalState (preprocess fs env)).env =
      (if isDefined env "ROCWMMA_WRAPPER_H" then env
       else if isDefined env "__HIP_PLATFORM_AMD__" then envAtInclude env
       else defineMacro "ROCWMMA_WRAPPER_H" "" env) := by
  cases hG : isDefined env "ROCWMMA_WRAPPER_H"
  · cases hP : isDefined env "__HIP_PLATFORM_AMD__"
    · simp [preprocess, includeWrapper_offPlatform fs ⟨env, []⟩ hG hP, finalState]
    · rw [preprocess, includeWrapper_onPlatform fs ⟨env, []⟩ hG hP]
      cases hf : fs pinnedPath with
      | none => simp [finalState, stateAtInclude]
      | some body => simp [finalState, hid body hf]
  · simp [preprocess, includeWrapper_guarded fs ⟨env, []⟩ hG, finalState]

/-- The environment at the `#include` extends the entry environment. -/
theorem envAtInclude_extends (env : Env) (hG : isDefined env "ROCWMMA_WRAPPER_H" = false) :
    (∀ n v, lookupMacro env n = some v → lookupMacro (envAtInclude env) n = some v) ∧
    (∀ n, isDefined env n = false → isDefined (envAtInclude env) n = true →
      n = wrapperGuard ∨ n = atomicGuard ∨ n = sentinel) := by
  simp only [wrapperGuard, atomicGuard, sentinel]
  unfold envAtInclude
  cases hA : isDefined env "AMD_HIP_ATOMIC_GUARD"
  · cases hS : isDefined env "HIP_INCLUDE_HIP_AMD_DETAIL_AMD_HIP_ATOMIC_H"
    · constructor
      · intro n v hn
        rw [if_neg (by simp), if_neg (by simp),
          lookupMacro_define_ne _ _ _ _ (ne_of_lookup env n _ v hn hS),
          lookupMacro_define_ne _ _ _ _ (ne_of_lookup env n _ v hn hA),
          lookupMacro_define_ne _ _ _ _ (ne_of_lookup env n _ v hn hG)]
        exact hn
      · intro n hn hn'
        by_contra hne
        push_neg at hne
        rw [if_neg (by simp), if_neg (by simp),
          isDefined_define_ne _ _ _ _ (Ne.symm hne.2.2),
          isDefined_define_ne _ _ _ _ (Ne.symm hne.2.1),
          isDefined_define_ne _ _ _ _ (Ne.symm hne.1), hn] at hn'
        cases hn'
    · constructor
      · intro n v hn
        rw [if_neg (by simp), if_pos rfl,
          lookupMacro_define_ne _ _ _ _ (ne_of_lookup env n _ v hn hA),
          lookupMacro_define_ne _ _ _ _ (ne_of_lookup env n _ v hn hG)]
        exact hn
      · intro n hn hn'
        by_contra hne
        push_neg at hne
        rw [if_neg (by simp), if_pos rfl,
          isDefined_define_ne _ _ _ _ (Ne.symm hne.2.1),
          isDefined_define_ne _ _ _ _ (Ne.symm hne.1), hn] at hn'
        cases hn'
  · constructor
    · intro n v hn
      rw [if_pos rfl, lookupMacro_define_ne _ _ _ _ (ne_of_lookup env n _ v hn hG)]
      exact hn
    · intro n hn hn'
      by_contra hne
      push_neg at hne
      rw [if_pos rfl, isDefined_define_ne _ _ _ _ (Ne.symm hne.1), hn] at hn'
      cases hn'

/-- C9: with the contents of the included file left out (they change
nothing), the wrapper only extends the macro environment: every macro defined
on entry keeps its value, a macro that is newly defined is one of
`ROCWMMA_WRAPPER_H`, `AMD_HIP_ATOMIC_GUARD`,
`HIP_INCLUDE_HIP_AMD_DETAIL_AMD_HIP_ATOMIC_H`, and the last one, when newly
defined, has value `0`. -/
theorem wrapper_only_extends_env (fs : FS) (env : Env)
    (hid : ∀ body, fs pinnedPath = some body → ∀ e, body e = e) :
    (∀ n v, lookupMacro env n = some v →
      lookupMacro (finalState (preprocess fs env)).env n = some v) ∧
    (∀ n, isDefined env n = false →
      isDefined (finalState (preprocess fs env)).env n = true →
        n = wrapperGuard ∨ n = atomicGuard ∨ n = sentinel) ∧
    (isDefined env sentinel = false →
      isDefined (finalState (preprocess fs env)).env sentinel = true →
        lookupMacro (finalState (preprocess fs env)).env sentinel = some "0") := by
  rw [env_after_wrapper fs env hid]
  simp only [wrapperGuard, atomicGuard, sentinel]
  cases hG : isDefined env "ROCWMMA_WRAPPER_H"
  · cases hP : isDefined env "__HIP_PLATFORM_AMD__"
    · simp only [Bool.false_eq_true, if_false]
      refine ⟨?_, ?_, ?_⟩
      · intro n v hn
        rw [lookupMacro_define_ne _ _ _ _ (ne_of_lookup env n _ v hn hG)]
        exact hn
      · intro n hn hn'
        left
        by_contra hne
        rw [isDefined_define_ne _ _ _ _ (Ne.symm hne), hn] at hn'
        cases hn'
      · intro hn hn'
        rw [isDefined_define_ne _ _ _ _ (by decide), hn] at hn'
        cases hn'
    · simp only [Bool.false_eq_true, if_false, if_true]
      obtain ⟨h1, h2⟩ := envAtInclude_extends env hG
      exact ⟨h1, h2, (sentinel_atInclude env).2.1⟩
  · simp only [if_true]
    refine ⟨fun _ _ h => h, ?_, ?_⟩
    · intro n hn hn'
      rw [hn] at hn'
      cases hn'
    · intro hn hn'
      rw [hn] at hn'
      cases hn'

/-- Witness of C9: the sentinel already defined by the platform header with
value `1`, on a host whose pinned file changes nothing; the sentinel keeps the
value `1`. -/
theorem wrapper_only_extends_env_witness :
    lookupMacro (finalState (preprocess (hostWith id)
      [("HIP_INCLUDE_HIP_AMD_DETAIL_AMD_HIP_ATOMIC_H", "1"),
       ("__HIP_PLATFORM_AMD__", "1")])).env sentinel = some "1" ∧
    ((∀ n v, lookupMacro [("HIP_INCLUDE_HIP_AMD_DETAIL_AMD_HIP_ATOMIC_H", "1"),
        ("__HIP_PLATFORM_AMD__", "1")] n = some v →
      lookupMacro (finalState (preprocess (hostWith id)
        [("HIP_INCLUDE_HIP_AMD_DETAIL_AMD_HIP_ATOMIC_H", "1"),
         ("__HIP_PLATFORM_AMD__", "1")])).env n = some v) ∧
    (∀ n, isDefined [("HIP_INCLUDE_HIP_AMD_DETAIL_AMD_HIP_ATOMIC_H", "1"),
        ("__HIP_PLATFORM_AMD__", "1")] n = false →
      isDefined (finalState (preprocess (hostWith id)
        [("HIP_INCLUDE_HIP_AMD_DETAIL_AMD_HIP_ATOMIC_H", "1"),
         ("__HIP_PLATFORM_AMD__", "1")])).env n = true →
        n = wrapperGuard ∨ n = atomicGuard ∨ n = sentinel) ∧
    (isDefined [("HIP_INCLUDE_HIP_AMD_DETAIL_AMD_HIP_ATOMIC_H", "1"),
        ("__HIP_PLATFORM_AMD__", "1")] sentinel = false →
      isDefined (finalState (preprocess (hostWith id)
        [("HIP_INCLUDE_HIP_AMD_DETAIL_AMD_HIP_ATOMIC_H", "1"),
         ("__HIP_PLATFORM_AMD__", "1")])).env sentinel = true →
        lookupMacro (finalState (preprocess (hostWith id)
          [("HIP_INCLUDE_HIP_AMD_DETAIL_AMD_HIP_ATOMIC_H", "1"),
           ("__HIP_PLATFORM_AMD__", "1")])).env sentinel = some "0")) :=
  ⟨by decide,
   wrapper_only_extends_env (hostWith id)
    [("HIP_INCLUDE_HIP_AMD_DETAIL_AMD_HIP_ATOMIC_H", "1"), ("__HIP_PLATFORM_AMD__", "1")]
    (fun body hb e => by
      have hb' : id = body := by simpa [hostWith] using hb
      subst hb'
      rfl)⟩

end RocwmmaWrapper
